import Mathlib

/-!
# Verification of the defi_greeks formula library

A shallow embedding of the 0xperp/defi_greeks Rust library in Lean 4, together
with theorems settling the specification claims about it.

Two embeddings are used:

* `DefiGreeks`: the arithmetic of the library over `ℝ` (exact real semantics of
  the floating-point formulas; `powf(·, 2.0)` becomes squaring, `E.powf` becomes
  `Real.exp`, `.ln()` becomes `Real.log`, `.sqrt()` becomes `Real.sqrt`).
* `FP` / `FPSem`: a model of IEEE floating point with the special values
  NaN and ±infinity and exact-real finite arithmetic, for the claims about
  divide-by-zero and NaN propagation.  A single (positive) zero is modelled;
  every zero the relevant claims produce is a positive IEEE zero.
-/

noncomputable section

open Real

namespace DefiGreeks

/-! ## common.rs -/

/-- Source `common.rs`: `d1(s0, x, t, r, q, sigma)`. -/
def d1 (s0 x t r q sigma : ℝ) : ℝ :=
  let ln := Real.log (s0 / x)
  let t_num := t * (r - q + sigma ^ 2 / 2)
  (ln + t_num) / (sigma * Real.sqrt t)

/-- Source `common.rs`: `d2(s0, x, t, r, q, sigma)`. -/
def d2 (s0 x t r q sigma : ℝ) : ℝ :=
  let d1v := d1 s0 x t r q sigma
  d1v - Real.sqrt t * sigma

/-- Source `common.rs`: `d2_d1(t, sigma, d1)`. -/
def d2_d1 (t sigma d1v : ℝ) : ℝ :=
  d1v - Real.sqrt t * sigma

/-- Source `common.rs`: `one_over_sqrt_pi()`, the constant `1/sqrt(2*PI)`. -/
def one_over_sqrt_pi : ℝ :=
  1 / Real.sqrt (2 * π)

/-! ## stats.rs -/

/-- Source `stats.rs`: coefficient `A1`. -/
def A1 : ℝ := 0.31938153

/-- Source `stats.rs`: coefficient `A2`. -/
def A2 : ℝ := -0.356563782

/-- Source `stats.rs`: coefficient `A3`. -/
def A3 : ℝ := 1.781477937

/-- Source `stats.rs`: coefficient `A4`. -/
def A4 : ℝ := -1.821255978

/-- Source `stats.rs`: coefficient `A5`. -/
def A5 : ℝ := 1.330274429

/-- Source `stats.rs`: constant `RSQRTPI`. -/
def RSQRTPI : ℝ := 0.39894228040143267793994605993438

/-- Source `stats.rs`: `cnd(x)`, the Zelen-Severo polynomial approximation of
the standard normal CDF. -/
def cnd (x : ℝ) : ℝ :=
  let k := 1 / (1 + 0.2316419 * |x|)
  let c := RSQRTPI * Real.exp (-0.5 * x * x) *
      (k * (A1 + k * (A2 + k * (A3 + k * (A4 + k * A5)))))
  if x > 0 then 1 - c else c

/-! ## price.rs -/

/-- Source `price.rs`: `euro_call(s0, x, t, r, q, sigma)`. -/
def euro_call (s0 x t r q sigma : ℝ) : ℝ :=
  let d1v := d1 s0 x t r q sigma
  let d2v := d2_d1 t sigma d1v
  let arg1 := s0 * cnd d1v
  let arg2 := x * Real.exp (-r * t) * cnd d2v
  arg1 - arg2

/-- Source `price.rs`: `euro_put(s0, x, t, r, q, sigma)`. -/
def euro_put (s0 x t r q sigma : ℝ) : ℝ :=
  let d1v := d1 s0 x t r q sigma
  let d2v := d2_d1 t sigma d1v
  let arg1 := s0 * cnd (-d1v)
  let arg2 := x * Real.exp (-r * t) * cnd (-d2v)
  Neg.neg arg1 + arg2

/-! ## value.rs -/

/-- Source `value.rs`: `call_at_expiry(s_t, x)`. -/
def call_at_expiry (s_t x : ℝ) : ℝ :=
  let res := s_t - x
  if res > 0 then res else 0

/-- Source `value.rs`: `put_at_expiry(s_t, x)`. -/
def put_at_expiry (s_t x : ℝ) : ℝ :=
  let res := x - s_t
  if res > 0 then res else 0

/-! ## greeks/second.rs -/

/-- Source `greeks/second.rs`: `gamma_d1(s0, t, q, sigma, d1)`.  Note the
source text: `arg3 = E.powf((-d1).powf(2.0)) / 2.0`, i.e. the exponent is
`(-d1)^2` and the division by `2` is applied outside the exponential. -/
def gamma_d1 (s0 t q sigma d1v : ℝ) : ℝ :=
  let arg1 := Real.exp (-(q * t)) / (s0 * sigma * Real.sqrt t)
  let arg2 := one_over_sqrt_pi
  let arg3 := Real.exp ((-d1v) ^ 2) / 2
  arg1 * arg2 * arg3

/-- Source `greeks/second.rs`: `gamma(s0, x, t, r, q, sigma)`. -/
def gamma (s0 x t r q sigma : ℝ) : ℝ :=
  gamma_d1 s0 t q sigma (d1 s0 x t r q sigma)

/-- Modelled from the spec wording of claim C1 (section 4.5): the claimed
formula `e^(-q t) / (s0*sigma*sqrt(t)) * (1/sqrt(2 pi)) * e^(-d1^2/2)`, with
`d1` the library's own `d1`.  This is the comparison point for the refinement
claim; the source definition is `gamma` above. -/
def gammaSpecFormula (s0 x t r q sigma : ℝ) : ℝ :=
  Real.exp (-(q * t)) / (s0 * sigma * Real.sqrt t) * (1 / Real.sqrt (2 * π)) *
    Real.exp (-((d1 s0 x t r q sigma) ^ 2) / 2)

/-! ## greeks/squeeks.rs -/

/-- Source `greeks/squeeks.rs`: constant `funding_period = 17.5 / 365.0`. -/
def funding_period : ℝ := 17.5 / 365

/-- Source `greeks/squeeks.rs`: constant `scaling_factor = 10000.0`. -/
def scaling_factor : ℝ := 10000

/-- Source `greeks/squeeks.rs`: constant `eulers_number = 2.718281828459`
(a fixed literal, not the platform constant `E`). -/
def eulers_number : ℝ := 2.718281828459

/-- Source `greeks/squeeks.rs`: `sqth_to_usd(eth_price, normalization_factor, iv)`. -/
def sqth_to_usd (eth_price normalization_factor iv : ℝ) : ℝ :=
  normalization_factor * eth_price ^ 2 *
      Real.rpow eulers_number (iv ^ 2 * funding_period) / scaling_factor

/-- Source `greeks/squeeks.rs`: `sqth_theta(eth_price, normalization_factor, iv)`. -/
def sqth_theta (eth_price normalization_factor iv : ℝ) : ℝ :=
  iv ^ 2 * sqth_to_usd eth_price normalization_factor iv

/-- Source `greeks/squeeks.rs`: `sqth_vega(eth_price, normalization_factor, iv)`. -/
def sqth_vega (eth_price normalization_factor iv : ℝ) : ℝ :=
  2 * iv * funding_period * sqth_to_usd eth_price normalization_factor iv

end DefiGreeks

namespace DefiGreeks

/-! ## Basic facts about the embedding -/

theorem cnd_of_pos {x : ℝ} (hx : 0 < x) :
    cnd x = 1 - RSQRTPI * Real.exp (-0.5 * x * x) *
      ((1 / (1 + 0.2316419 * |x|)) *
        (A1 + (1 / (1 + 0.2316419 * |x|)) *
          (A2 + (1 / (1 + 0.2316419 * |x|)) *
            (A3 + (1 / (1 + 0.2316419 * |x|)) *
              (A4 + (1 / (1 + 0.2316419 * |x|)) * A5))))) := by
  simp only [cnd, if_pos hx]

theorem cnd_of_nonpos {x : ℝ} (hx : ¬ 0 < x) :
    cnd x = RSQRTPI * Real.exp (-0.5 * x * x) *
      ((1 / (1 + 0.2316419 * |x|)) *
        (A1 + (1 / (1 + 0.2316419 * |x|)) *
          (A2 + (1 / (1 + 0.2316419 * |x|)) *
            (A3 + (1 / (1 + 0.2316419 * |x|)) *
              (A4 + (1 / (1 + 0.2316419 * |x|)) * A5))))) := by
  simp only [cnd, if_neg hx]

/-- The polynomial factor of `cnd` is even in `x`, so for nonzero `x` the two
branches of `cnd` are exact complements. -/
theorem cnd_add_cnd_neg {x : ℝ} (hx : x ≠ 0) : cnd x + cnd (-x) = 1 := by
  rcases lt_or_gt_of_ne hx with h | h
  · have h1 : ¬ 0 < x := not_lt.mpr h.le
    have h2 : 0 < -x := neg_pos.mpr h
    rw [cnd_of_nonpos h1, cnd_of_pos h2, abs_neg]
    ring_nf
  · have h1 : ¬ 0 < -x := not_lt.mpr (neg_nonpos.mpr h.le)
    have h2 : 0 < x := h
    rw [cnd_of_pos h2, cnd_of_nonpos h1, abs_neg]
    ring_nf

theorem cnd_zero_eq : cnd 0 = RSQRTPI * (A1 + (A2 + (A3 + (A4 + A5)))) := by
  rw [cnd_of_nonpos (by norm_num)]
  norm_num

/-! ## Claim theorems over the real-semantics embedding -/

/-- C5: `cnd 0` is within `1e-6` of `0.5`, and for every `x`,
`cnd x + cnd (-x)` is within `1e-6` of `1` (symmetry of the
cumulative-normal approximation). -/
theorem c5_cnd_symmetry :
    |cnd 0 - 0.5| < 1e-6 ∧ ∀ x : ℝ, |cnd x + cnd (-x) - 1| < 1e-6 := by
  have h0 : |cnd 0 - 0.5| < 5e-7 := by
    rw [cnd_zero_eq]
    rw [RSQRTPI, A1, A2, A3, A4, A5]
    rw [abs_lt]
    norm_num
  refine ⟨lt_trans h0 (by norm_num), fun x => ?_⟩
  rcases eq_or_ne x 0 with hx | hx
  · subst hx
    rw [neg_zero]
    have : |cnd 0 + cnd 0 - 1| = |2| * |cnd 0 - 0.5| := by
      rw [← abs_mul]
      congr 1
      ring
    rw [this]
    calc |(2:ℝ)| * |cnd 0 - 0.5| < |(2:ℝ)| * 5e-7 := by
          apply mul_lt_mul_of_pos_left h0 (by norm_num)
      _ ≤ 1e-6 := by rw [abs_of_pos]; norm_num; norm_num
  · rw [cnd_add_cnd_neg hx]
    norm_num

/-- C6: `sqth_theta` is exactly `iv^2` times `sqth_to_usd`, `sqth_vega` is
exactly `2 * iv * FUNDING_PERIOD` times `sqth_to_usd` (the same
`sqth_to_usd` computation), and `FUNDING_PERIOD = 17.5/365`. -/
theorem c6_sqth_theta_vega (eth_price normalization_factor iv : ℝ) :
    sqth_theta eth_price normalization_factor iv =
        iv ^ 2 * sqth_to_usd eth_price normalization_factor iv ∧
      sqth_vega eth_price normalization_factor iv =
        2 * iv * funding_period * sqth_to_usd eth_price normalization_factor iv ∧
      funding_period = 17.5 / 365 :=
  ⟨rfl, rfl, rfl⟩

/-- C7: put-call parity at expiry, exact: for all `s_t` and `x`,
`call_at_expiry s_t x - put_at_expiry s_t x = s_t - x`. -/
theorem c7_parity_at_expiry (s_t x : ℝ) :
    call_at_expiry s_t x - put_at_expiry s_t x = s_t - x := by
  unfold call_at_expiry put_at_expiry
  rcases lt_trichotomy (s_t - x) 0 with h | h | h
  · rw [if_neg (by simpa using not_lt.mpr h.le), if_pos (by linarith)]
    ring
  · rw [if_neg (by simp [h]), if_neg (by rw [show x - s_t = -(s_t - x) by ring, h]; norm_num)]
    linarith
  · rw [if_pos (by simpa using h), if_neg (by simpa using not_lt.mpr (by linarith : x - s_t ≤ 0))]
    ring

/-- C1 (counterexample): at `s0 = 1, x = 1, t = 1, r = 0, q = 0, sigma = 2`
(so that the library's `d1` equals `1`), `gamma` does not return the claimed
value `e^(-q t) / (s0*sigma*sqrt t) * (1/sqrt (2 pi)) * e^(-d1^2/2)`:
the source computes `e^((-d1)^2) / 2`, not `e^(-d1^2/2)`. -/
theorem c1_gamma_spec_formula_counterexample :
    gamma 1 1 1 0 0 2 ≠ gammaSpecFormula 1 1 1 0 0 2 := by
  have hd1 : d1 1 1 1 0 0 2 = 1 := by
    unfold d1
    rw [Real.sqrt_one]
    norm_num
  have hg : gamma 1 1 1 0 0 2 =
      Real.exp (-(0 * 1)) / (1 * 2 * 1) * (1 / Real.sqrt (2 * π)) *
        (Real.exp ((-(1:ℝ)) ^ 2) / 2) := by
    unfold gamma gamma_d1 one_over_sqrt_pi
    rw [hd1, Real.sqrt_one]
  have hs : gammaSpecFormula 1 1 1 0 0 2 =
      Real.exp (-(0 * 1)) / (1 * 2 * 1) * (1 / Real.sqrt (2 * π)) *
        Real.exp (-((1:ℝ) ^ 2) / 2) := by
    unfold gammaSpecFormula
    rw [hd1, Real.sqrt_one]
  have hab : (0:ℝ) < Real.exp (-(0 * 1)) / (1 * 2 * 1) * (1 / Real.sqrt (2 * π)) := by
    have hsqrtpi : (0:ℝ) < Real.sqrt (2 * π) :=
      Real.sqrt_pos.mpr (by positivity)
    positivity
  have key : Real.exp ((-(1:ℝ)) ^ 2) / 2 ≠ Real.exp (-((1:ℝ) ^ 2) / 2) := by
    have e1 : Real.exp (-((1:ℝ) ^ 2) / 2) < 1 := by
      rw [Real.exp_lt_one_iff]
      norm_num
    have e2 : (2:ℝ) < Real.exp ((-(1:ℝ)) ^ 2) := by
      have h27 : (2:ℝ) < Real.exp 1 := by
        have := Real.exp_one_gt_d9
        linarith
      simpa using h27
    intro hc
    rw [div_eq_iff (by norm_num : (2:ℝ) ≠ 0)] at hc
    rw [hc] at e2
    linarith
  rw [hg, hs]
  intro h
  exact key (mul_left_cancel₀ (ne_of_gt hab) h)

/-- C1 (amended): for every `s0 > 0`, `x > 0`, `t > 0`, `sigma > 0` and all
`r`, `q` (indeed for all real inputs), `gamma` returns
`e^(-q t) / (s0*sigma*sqrt t) * (1/sqrt (2 pi)) * (e^(d1^2) / 2)` with `d1`
the library's own `d1`: the exponent is `+d1^2` (equivalently `(-d1)^2`) and
the division by `2` applies to the exponential, not inside the exponent. -/
theorem c1_gamma_formula_amended (s0 x t r q sigma : ℝ) :
    gamma s0 x t r q sigma =
      Real.exp (-(q * t)) / (s0 * sigma * Real.sqrt t) * (1 / Real.sqrt (2 * π)) *
        (Real.exp ((d1 s0 x t r q sigma) ^ 2) / 2) := by
  unfold gamma gamma_d1 one_over_sqrt_pi
  rw [neg_sq]

/-- Helper: the put-call parity the code actually satisfies.  Away from the
measure-zero set `d1 = 0` or `d2 = 0` (where the `cnd` approximation is off
by about `1e-9` from exact complementarity), the parity is exact and the
`s0` leg carries no dividend discount. -/
theorem euro_parity_exact (s0 x t r q sigma : ℝ)
    (hd1 : d1 s0 x t r q sigma ≠ 0)
    (hd2 : d2_d1 t sigma (d1 s0 x t r q sigma) ≠ 0) :
    euro_call s0 x t r q sigma - euro_put s0 x t r q sigma =
      s0 - x * Real.exp (-r * t) := by
  have h1 := cnd_add_cnd_neg hd1
  have h2 := cnd_add_cnd_neg hd2
  unfold euro_call euro_put
  dsimp only
  linear_combination s0 * h1 - x * Real.exp (-r * t) * h2

/-- C3 (counterexample): at `s0 = 1, x = 1, t = 1, r = 0, q = 1, sigma = 1`
the difference `euro_call - euro_put` is `0`, but the claimed value
`s0*e^(-q t) - x*e^(-r t)` is `e^(-1) - 1`, about `-0.632`: the claim fails
far beyond the `1e-6` tolerance because `euro_call`/`euro_put` apply no
dividend discount to the `s0` leg. -/
theorem c3_put_call_parity_counterexample :
    ¬ (|euro_call 1 1 1 0 1 1 - euro_put 1 1 1 0 1 1 -
        ((1:ℝ) * Real.exp (-(1 * 1)) - 1 * Real.exp (-(0 * 1)))| ≤ 1e-6) := by
  have hd1 : d1 1 1 1 0 1 1 = -(1/2) := by
    unfold d1
    rw [Real.sqrt_one]
    norm_num
  have hd2 : d2_d1 1 1 (d1 1 1 1 0 1 1) = -(3/2) := by
    unfold d2_d1
    rw [hd1, Real.sqrt_one]
    norm_num
  have hpar := euro_parity_exact 1 1 1 0 1 1
    (by rw [hd1]; norm_num) (by rw [hd2]; norm_num)
  rw [hpar]
  have hexp0 : Real.exp ((-0) * 1 : ℝ) = 1 := by norm_num
  have hexp0b : Real.exp (-((0:ℝ) * 1)) = 1 := by norm_num
  rw [hexp0, hexp0b, not_le]
  have h2 : (2:ℝ) < Real.exp 1 := by
    have := Real.exp_one_gt_d9
    linarith
  have hprod : Real.exp (-((1:ℝ) * 1)) * Real.exp 1 = 1 := by
    rw [← Real.exp_add]
    norm_num
  have hpos : (0:ℝ) < Real.exp (-((1:ℝ) * 1)) := Real.exp_pos _
  generalize hA : Real.exp (-((1:ℝ) * 1)) = A at hprod hpos ⊢
  generalize hB : Real.exp 1 = B at hprod h2
  have hA2 : A < 1/2 := by nlinarith
  have hsimp : (1:ℝ) - 1 * 1 - (1 * A - 1 * 1) = 1 - A := by ring
  rw [hsimp, abs_of_pos (by linarith)]
  linarith

/-- C3 (amended): for all Black-Scholes inputs with `d1 ≠ 0` and `d2 ≠ 0`
(the library `d1`/`d2`; on that measure-zero set the polynomial `cnd`
deviates from exact complementarity by about `1e-9` per leg),
`euro_call - euro_put` equals `s0 - x*e^(-r t)` exactly — in particular
within `1e-6`.  The `e^(-q t)` discount of `s0` in the original claim does
not hold: the code never discounts the `s0` leg. -/
theorem c3_put_call_parity_amended (s0 x t r q sigma : ℝ)
    (hd1 : d1 s0 x t r q sigma ≠ 0)
    (hd2 : d2_d1 t sigma (d1 s0 x t r q sigma) ≠ 0) :
    euro_call s0 x t r q sigma - euro_put s0 x t r q sigma =
      s0 - x * Real.exp (-r * t) :=
  euro_parity_exact s0 x t r q sigma hd1 hd2

/-- C3 (witness): the amended parity instantiated at
`s0 = 1, x = 1, t = 1, r = 0, q = 1, sigma = 1`. -/
theorem c3_put_call_parity_amended_witness :
    d1 1 1 1 0 1 1 ≠ 0 ∧ d2_d1 1 1 (d1 1 1 1 0 1 1) ≠ 0 ∧
      euro_call 1 1 1 0 1 1 - euro_put 1 1 1 0 1 1 =
        1 - 1 * Real.exp (-(0:ℝ) * 1) := by
  have hd1 : d1 1 1 1 0 1 1 = -(1/2) := by
    unfold d1
    rw [Real.sqrt_one]
    norm_num
  have hd2 : d2_d1 1 1 (d1 1 1 1 0 1 1) = -(3/2) := by
    unfold d2_d1
    rw [hd1, Real.sqrt_one]
    norm_num
  have h1 : d1 1 1 1 0 1 1 ≠ 0 := by rw [hd1]; norm_num
  have h2 : d2_d1 1 1 (d1 1 1 1 0 1 1) ≠ 0 := by rw [hd2]; norm_num
  exact ⟨h1, h2, c3_put_call_parity_amended 1 1 1 0 1 1 h1 h2⟩

end DefiGreeks

/-! ## IEEE special-value model

For the claims about divide-by-zero, NaN and infinity we model a float as
either NaN, one of the two infinities, or a finite value carried as an exact
real.  Rounding is not modelled (finite arithmetic is exact); the single
`finite 0` plays the role of the positive IEEE zero, which is the sign of
every zero arising in the claims below (`sqrt 0`, `sigma * sqrt 0` with
`sigma ≥ 0`, `x / x - 1`, `2 * 0`). -/

/-- An IEEE floating-point value: NaN, ±infinity, or a finite real. -/
inductive FP where
  | nan : FP
  | inf : FP
  | neginf : FP
  | finite : ℝ → FP

namespace FP

/-- IEEE negation. -/
def neg : FP → FP
  | nan => nan
  | inf => neginf
  | neginf => inf
  | finite a => finite (-a)

/-- IEEE addition (exact in the finite-finite case). -/
def add : FP → FP → FP
  | nan, _ => nan
  | _, nan => nan
  | inf, neginf => nan
  | neginf, inf => nan
  | inf, _ => inf
  | _, inf => inf
  | neginf, _ => neginf
  | _, neginf => neginf
  | finite a, finite b => finite (a + b)

/-- IEEE subtraction: `a - b = a + (-b)`. -/
def sub (a b : FP) : FP := add a (neg b)

/-- IEEE multiplication (exact in the finite-finite case; `±inf * 0 = NaN`). -/
def mul : FP → FP → FP
  | nan, _ => nan
  | _, nan => nan
  | finite a, finite b => finite (a * b)
  | inf, finite b => if 0 < b then inf else if b < 0 then neginf else nan
  | finite a, inf => if 0 < a then inf else if a < 0 then neginf else nan
  | neginf, finite b => if 0 < b then neginf else if b < 0 then inf else nan
  | finite a, neginf => if 0 < a then neginf else if a < 0 then inf else nan
  | inf, inf => inf
  | inf, neginf => neginf
  | neginf, inf => neginf
  | neginf, neginf => inf

/-- IEEE division; a zero divisor is the positive zero, so a finite nonzero
numerator over zero gives the infinity of the numerator's sign and `0/0`
gives NaN. -/
def div : FP → FP → FP
  | nan, _ => nan
  | _, nan => nan
  | finite a, finite b =>
      if b = 0 then (if 0 < a then inf else if a < 0 then neginf else nan)
      else finite (a / b)
  | finite _, inf => finite 0
  | finite _, neginf => finite 0
  | inf, finite b => if b < 0 then neginf else inf
  | neginf, finite b => if b < 0 then inf else neginf
  | inf, inf => nan
  | inf, neginf => nan
  | neginf, inf => nan
  | neginf, neginf => nan

/-- IEEE square root: NaN on negative arguments. -/
def sqrt : FP → FP
  | nan => nan
  | inf => inf
  | neginf => nan
  | finite a => if a < 0 then nan else finite (Real.sqrt a)

/-- IEEE natural logarithm: `ln 0 = -inf`, NaN on negative arguments. -/
def log : FP → FP
  | nan => nan
  | inf => inf
  | neginf => nan
  | finite a => if a < 0 then nan else if a = 0 then neginf else finite (Real.log a)

/-- IEEE `powf(x, 2.0)`: squares the value; `(±inf)^2 = +inf`. -/
def pow2 : FP → FP
  | nan => nan
  | inf => inf
  | neginf => inf
  | finite a => finite (a ^ 2)

/-- IEEE ordered comparison `a < b`: false whenever an operand is NaN. -/
def lt : FP → FP → Bool
  | finite a, finite b => decide (a < b)
  | neginf, finite _ => true
  | finite _, inf => true
  | neginf, inf => true
  | _, _ => false

/-- IEEE ordered comparison `a > b`, i.e. `b < a`. -/
def gt (a b : FP) : Bool := lt b a

/-- The value is a finite number (not NaN, not an infinity). -/
def isFinite : FP → Prop
  | finite _ => True
  | _ => False

/-- The value is strictly negative: `-inf` or a finite value below zero. -/
def isNegative : FP → Prop
  | finite a => a < 0
  | neginf => True
  | _ => False

/-! Evaluation lemmas for the model. -/

theorem add_nan_right (a : FP) : add a nan = nan := by cases a <;> rfl

theorem sub_nan_right (a : FP) : sub a nan = nan := by cases a <;> rfl

theorem nan_sub (a : FP) : sub nan a = nan := by cases a <;> rfl

theorem div_nan_left (a : FP) : div nan a = nan := by cases a <;> rfl

theorem lt_nan_right (a : FP) : lt a nan = false := by cases a <;> rfl

theorem gt_nan_left (a : FP) : gt nan a = false := by
  cases a <;> rfl

theorem neg_finite (a : ℝ) : neg (finite a) = finite (-a) := rfl

theorem add_finite (a b : ℝ) : add (finite a) (finite b) = finite (a + b) := rfl

theorem sub_finite (a b : ℝ) : sub (finite a) (finite b) = finite (a - b) := by
  simp [sub, add, neg, sub_eq_add_neg]

theorem mul_finite (a b : ℝ) : mul (finite a) (finite b) = finite (a * b) := rfl

theorem div_finite (a b : ℝ) (hb : b ≠ 0) :
    div (finite a) (finite b) = finite (a / b) := by
  simp [div, hb]

theorem div_zero_pos (a : ℝ) (ha : 0 < a) : div (finite a) (finite 0) = inf := by
  simp [div, ha]

theorem div_zero_neg (a : ℝ) (ha : a < 0) : div (finite a) (finite 0) = neginf := by
  simp [div, ha, ha.not_lt]

theorem div_zero_zero : div (finite 0) (finite 0) = nan := by
  simp [div]

theorem sqrt_finite (a : ℝ) (ha : 0 ≤ a) :
    sqrt (finite a) = finite (Real.sqrt a) := by
  simp [sqrt, not_lt.mpr ha]

theorem sqrt_finite_neg (a : ℝ) (ha : a < 0) : sqrt (finite a) = nan := by
  simp [sqrt, ha]

theorem log_finite_pos (a : ℝ) (ha : 0 < a) :
    log (finite a) = finite (Real.log a) := by
  simp [log, not_lt.mpr ha.le, ne_of_gt ha]

theorem pow2_finite (a : ℝ) : pow2 (finite a) = finite (a ^ 2) := rfl

theorem gt_finite (a b : ℝ) : gt (finite a) (finite b) = decide (b < a) := rfl

theorem isFinite_iff (a : FP) : isFinite a ↔ ∃ v : ℝ, a = finite v := by
  cases a <;> simp [isFinite]

end FP

/-! ## The library functions over the IEEE model -/

namespace FPSem

open FP

/-- Source `common.rs` `d1` over the IEEE model (claim C8 concerns its
behaviour at `t = 0` or `sigma = 0`). -/
def d1 (s0 x t r q sigma : FP) : FP :=
  let ln := FP.log (FP.div s0 x)
  let t_num := FP.mul t (FP.add (FP.sub r q) (FP.div (FP.pow2 sigma) (FP.finite 2)))
  FP.div (FP.add ln t_num) (FP.mul sigma (FP.sqrt t))

/-- Source `value.rs` `call_at_expiry` over the IEEE model. -/
def call_at_expiry (s_t x : FP) : FP :=
  let res := FP.sub s_t x
  if FP.gt res (FP.finite 0) then res else FP.finite 0

/-- Source `value.rs` `put_at_expiry` over the IEEE model. -/
def put_at_expiry (s_t x : FP) : FP :=
  let res := FP.sub x s_t
  if FP.gt res (FP.finite 0) then res else FP.finite 0

/-- Source `greeks/concentrated_liquidity.rs` `virtual_liquidity` over the
IEEE model (the source uses `f32`; the special-value behaviour is the same). -/
def virtual_liquidity (p_a p_b r_a r_b : FP) : FP :=
  let a := FP.sub (FP.div (FP.sqrt p_a) (FP.sqrt p_b)) (FP.finite 1)
  let b := FP.add (FP.div r_b (FP.sqrt p_b)) (FP.mul r_a (FP.sqrt p_a))
  let c := FP.mul r_a r_b
  let d := FP.sub (FP.pow2 b) (FP.mul (FP.mul (FP.finite 4) a) c)
  let solution1 := FP.div (FP.sub (FP.neg b) (FP.sqrt d)) (FP.mul (FP.finite 2) a)
  let solution2 := FP.div (FP.add (FP.neg b) (FP.sqrt d)) (FP.mul (FP.finite 2) a)
  if FP.gt solution1 (FP.finite 0) then solution1 else solution2

/-- Modelled from the spec wording of claim C4: the quadratic leading
coefficient `a = sqrt(p_a)/sqrt(p_b) - 1`. -/
def vl_a (p_a p_b : FP) : FP :=
  FP.sub (FP.div (FP.sqrt p_a) (FP.sqrt p_b)) (FP.finite 1)

/-- Modelled from the spec wording of claim C4: the linear coefficient
`b = r_b/sqrt(p_b) + r_a*sqrt(p_a)`. -/
def vl_b (p_a p_b r_a r_b : FP) : FP :=
  FP.add (FP.div r_b (FP.sqrt p_b)) (FP.mul r_a (FP.sqrt p_a))

/-- Modelled from the spec wording of claim C4: the constant coefficient
`c = r_a * r_b`. -/
def vl_c (r_a r_b : FP) : FP := FP.mul r_a r_b

/-- Modelled from the spec wording of claim C4: the discriminant
`d = b^2 - 4*a*c`. -/
def vl_d (p_a p_b r_a r_b : FP) : FP :=
  FP.sub (FP.pow2 (vl_b p_a p_b r_a r_b))
    (FP.mul (FP.mul (FP.finite 4) (vl_a p_a p_b)) (vl_c r_a r_b))

/-- Modelled from the spec wording of claim C4: the root
`solution1 = (-b - sqrt d) / (2a)`. -/
def vl_solution1 (p_a p_b r_a r_b : FP) : FP :=
  FP.div (FP.sub (FP.neg (vl_b p_a p_b r_a r_b)) (FP.sqrt (vl_d p_a p_b r_a r_b)))
    (FP.mul (FP.finite 2) (vl_a p_a p_b))

/-- Modelled from the spec wording of claim C4: the root
`solution2 = (-b + sqrt d) / (2a)`. -/
def vl_solution2 (p_a p_b r_a r_b : FP) : FP :=
  FP.div (FP.add (FP.neg (vl_b p_a p_b r_a r_b)) (FP.sqrt (vl_d p_a p_b r_a r_b)))
    (FP.mul (FP.finite 2) (vl_a p_a p_b))

/-- Helper: `virtual_liquidity` is definitionally the root selection over the
claim's coefficient formulas. -/
theorem virtual_liquidity_eq (p_a p_b r_a r_b : FP) :
    virtual_liquidity p_a p_b r_a r_b =
      if FP.gt (vl_solution1 p_a p_b r_a r_b) (FP.finite 0) then
        vl_solution1 p_a p_b r_a r_b
      else vl_solution2 p_a p_b r_a r_b := rfl

/-- Helper: `Real.sqrt 4 = 2`, used by concrete witnesses. -/
theorem sqrt_four : Real.sqrt (4:ℝ) = 2 := by
  rw [show (4:ℝ) = 2 ^ 2 by norm_num, Real.sqrt_sq (by norm_num : (0:ℝ) ≤ 2)]

/-- C4: `virtual_liquidity` forms the quadratic coefficients
`a = sqrt(p_a)/sqrt(p_b) - 1`, `b = r_b/sqrt(p_b) + r_a*sqrt(p_a)`,
`c = r_a*r_b`, the discriminant `d = b^2 - 4*a*c`, and returns
`solution1 = (-b - sqrt d)/(2a)` if `solution1 > 0`, otherwise
`solution2 = (-b + sqrt d)/(2a)`; and when `d < 0` the result is NaN. -/
theorem c4_virtual_liquidity_structure (p_a p_b r_a r_b : FP) :
    (virtual_liquidity p_a p_b r_a r_b =
      if FP.gt (vl_solution1 p_a p_b r_a r_b) (FP.finite 0) then
        vl_solution1 p_a p_b r_a r_b
      else vl_solution2 p_a p_b r_a r_b) ∧
    (FP.lt (vl_d p_a p_b r_a r_b) (FP.finite 0) = true →
      virtual_liquidity p_a p_b r_a r_b = FP.nan) := by
  refine ⟨virtual_liquidity_eq p_a p_b r_a r_b, fun hlt => ?_⟩
  have hsqrtd : FP.sqrt (vl_d p_a p_b r_a r_b) = FP.nan := by
    rcases hD : vl_d p_a p_b r_a r_b with _ | _ | _ | dv
    · rw [hD] at hlt
      simp [FP.lt] at hlt
    · rw [hD] at hlt
      simp [FP.lt] at hlt
    · rfl
    · rw [hD] at hlt
      have hdv : dv < 0 := by simpa [FP.lt] using hlt
      exact FP.sqrt_finite_neg dv hdv
  have hs1 : vl_solution1 p_a p_b r_a r_b = FP.nan := by
    unfold vl_solution1
    rw [hsqrtd, FP.sub_nan_right, FP.div_nan_left]
  have hs2 : vl_solution2 p_a p_b r_a r_b = FP.nan := by
    unfold vl_solution2
    rw [hsqrtd, FP.add_nan_right, FP.div_nan_left]
  rw [virtual_liquidity_eq, hs1, hs2, FP.gt_nan_left]
  simp

/-- C4 (witness): at `p_a = 1, p_b = 4, r_a = 1, r_b = -4` the discriminant
is `-7 < 0` and `virtual_liquidity` returns NaN. -/
theorem c4_virtual_liquidity_structure_witness :
    FP.lt (vl_d (FP.finite 1) (FP.finite 4) (FP.finite 1) (FP.finite (-4)))
        (FP.finite 0) = true ∧
      virtual_liquidity (FP.finite 1) (FP.finite 4) (FP.finite 1) (FP.finite (-4)) =
        FP.nan := by
  have hd : vl_d (FP.finite 1) (FP.finite 4) (FP.finite 1) (FP.finite (-4)) =
      FP.finite (-7) := by
    unfold vl_d vl_b vl_a vl_c
    rw [FP.sqrt_finite 1 (by norm_num), FP.sqrt_finite 4 (by norm_num),
      Real.sqrt_one, sqrt_four, FP.div_finite (-4) 2 (by norm_num),
      FP.div_finite 1 2 (by norm_num), FP.mul_finite, FP.add_finite,
      FP.sub_finite, FP.pow2_finite, FP.mul_finite, FP.mul_finite, FP.mul_finite,
      FP.sub_finite]
    norm_num
  have hlt : FP.lt (vl_d (FP.finite 1) (FP.finite 4) (FP.finite 1) (FP.finite (-4)))
      (FP.finite 0) = true := by
    rw [hd]
    simp [FP.lt]
  exact ⟨hlt, (c4_virtual_liquidity_structure _ _ _ _).2 hlt⟩

/-- C8: for finite inputs with `s0 > 0`, `x > 0` and either `t = 0` with
`sigma ≥ 0` or `sigma = 0` with `t > 0`, `d1` returns a non-finite value
(NaN or an infinity) through an IEEE divide-by-zero; the embedding is a
total function on the model, so no error is trapped or signalled. -/
theorem c8_d1_nonfinite_at_boundary (s0 x t r q sigma : ℝ)
    (hs0 : 0 < s0) (hx : 0 < x)
    (h : (t = 0 ∧ 0 ≤ sigma) ∨ (sigma = 0 ∧ 0 < t)) :
    ¬ FP.isFinite (d1 (FP.finite s0) (FP.finite x) (FP.finite t)
      (FP.finite r) (FP.finite q) (FP.finite sigma)) := by
  have hnum : FP.add (FP.log (FP.div (FP.finite s0) (FP.finite x)))
      (FP.mul (FP.finite t) (FP.add (FP.sub (FP.finite r) (FP.finite q))
        (FP.div (FP.pow2 (FP.finite sigma)) (FP.finite 2)))) =
      FP.finite (Real.log (s0 / x) + t * ((r - q) + sigma ^ 2 / 2)) := by
    rw [FP.div_finite s0 x (ne_of_gt hx), FP.log_finite_pos _ (div_pos hs0 hx),
      FP.sub_finite, FP.pow2_finite, FP.div_finite _ 2 (by norm_num),
      FP.add_finite, FP.mul_finite, FP.add_finite]
  have hden : FP.mul (FP.finite sigma) (FP.sqrt (FP.finite t)) = FP.finite 0 := by
    rcases h with ⟨ht, hσ⟩ | ⟨hσ, ht⟩
    · subst ht
      rw [FP.sqrt_finite 0 le_rfl, Real.sqrt_zero, FP.mul_finite, mul_zero]
    · subst hσ
      rw [FP.sqrt_finite t ht.le, FP.mul_finite, zero_mul]
  have hd1 : d1 (FP.finite s0) (FP.finite x) (FP.finite t)
      (FP.finite r) (FP.finite q) (FP.finite sigma) =
      FP.div (FP.finite (Real.log (s0 / x) + t * ((r - q) + sigma ^ 2 / 2)))
        (FP.finite 0) := by
    rw [show d1 (FP.finite s0) (FP.finite x) (FP.finite t)
        (FP.finite r) (FP.finite q) (FP.finite sigma) =
        FP.div (FP.add (FP.log (FP.div (FP.finite s0) (FP.finite x)))
          (FP.mul (FP.finite t) (FP.add (FP.sub (FP.finite r) (FP.finite q))
            (FP.div (FP.pow2 (FP.finite sigma)) (FP.finite 2)))))
          (FP.mul (FP.finite sigma) (FP.sqrt (FP.finite t))) from rfl,
      hnum, hden]
  rw [hd1]
  rcases lt_trichotomy (Real.log (s0 / x) + t * ((r - q) + sigma ^ 2 / 2)) 0
    with hN | hN | hN
  · rw [FP.div_zero_neg _ hN]
    simp [FP.isFinite]
  · rw [hN, FP.div_zero_zero]
    simp [FP.isFinite]
  · rw [FP.div_zero_pos _ hN]
    simp [FP.isFinite]

/-- C8 (witness): `d1` at `s0 = 1, x = 2, t = 0, r = 0, q = 0, sigma = 1` is
non-finite. -/
theorem c8_d1_nonfinite_at_boundary_witness :
    (0:ℝ) < 1 ∧ (0:ℝ) < 2 ∧ ((0:ℝ) = 0 ∧ (0:ℝ) ≤ 1) ∧
      ¬ FP.isFinite (d1 (FP.finite 1) (FP.finite 2) (FP.finite 0)
        (FP.finite 0) (FP.finite 0) (FP.finite 1)) :=
  ⟨by norm_num, by norm_num, ⟨rfl, by norm_num⟩,
    c8_d1_nonfinite_at_boundary 1 2 0 0 0 1 (by norm_num) (by norm_num)
      (Or.inl ⟨rfl, by norm_num⟩)⟩

/-- Helper: the `if res > 0.0 { res } else { 0.0 }` clamp never returns a
negative value or NaN. -/
theorem payoff_clamp (res : FP) :
    ¬ FP.isNegative (if FP.gt res (FP.finite 0) then res else FP.finite 0) ∧
      (if FP.gt res (FP.finite 0) then res else FP.finite 0) ≠ FP.nan := by
  cases hgt : FP.gt res (FP.finite 0)
  · simp only [hgt, Bool.false_eq_true, if_false]
    refine ⟨?_, by simp⟩
    simp [FP.isNegative]
  · simp only [hgt, if_true]
    cases res with
    | nan => simp [FP.gt, FP.lt] at hgt
    | inf => exact ⟨by simp [FP.isNegative], by simp⟩
    | neginf => simp [FP.gt, FP.lt] at hgt
    | finite a =>
        have ha : 0 < a := by simpa [FP.gt, FP.lt] using hgt
        exact ⟨by simp [FP.isNegative, not_lt.mpr ha.le], by simp⟩

/-- C9: for every pair of inputs, including NaN and infinities,
`call_at_expiry` and `put_at_expiry` return a value that is neither negative
nor NaN; a NaN operand makes the comparison false, so the else-branch
returns exactly `0.0`. -/
theorem c9_at_expiry_never_negative_or_nan (s_t x : FP) :
    (¬ FP.isNegative (call_at_expiry s_t x) ∧ call_at_expiry s_t x ≠ FP.nan) ∧
    (¬ FP.isNegative (put_at_expiry s_t x) ∧ put_at_expiry s_t x ≠ FP.nan) ∧
    ((s_t = FP.nan ∨ x = FP.nan) →
      call_at_expiry s_t x = FP.finite 0 ∧ put_at_expiry s_t x = FP.finite 0) := by
  refine ⟨payoff_clamp _, payoff_clamp _, fun h => ?_⟩
  have hsub1 : FP.sub s_t x = FP.nan := by
    rcases h with h | h
    · subst h
      exact FP.nan_sub x
    · subst h
      exact FP.sub_nan_right s_t
  have hsub2 : FP.sub x s_t = FP.nan := by
    rcases h with h | h
    · subst h
      exact FP.sub_nan_right x
    · subst h
      exact FP.nan_sub s_t
  constructor
  · show (if FP.gt (FP.sub s_t x) (FP.finite 0) then FP.sub s_t x
      else FP.finite 0) = FP.finite 0
    rw [hsub1, FP.gt_nan_left]
    simp
  · show (if FP.gt (FP.sub x s_t) (FP.finite 0) then FP.sub x s_t
      else FP.finite 0) = FP.finite 0
    rw [hsub2, FP.gt_nan_left]
    simp

/-- C9 (witness): a NaN terminal price yields exactly `0.0` from both payoff
functions. -/
theorem c9_at_expiry_never_negative_or_nan_witness :
    (FP.nan = FP.nan ∨ FP.finite 1 = FP.nan) ∧
      call_at_expiry FP.nan (FP.finite 1) = FP.finite 0 ∧
      put_at_expiry FP.nan (FP.finite 1) = FP.finite 0 := by
  have h := c9_at_expiry_never_negative_or_nan FP.nan (FP.finite 1)
  exact ⟨Or.inl rfl, (h.2.2 (Or.inl rfl)).1, (h.2.2 (Or.inl rfl)).2⟩

/-- C10: on a degenerate zero-width range `p_a = p_b = p > 0` with reserves
`r_a, r_b ≥ 0` whose computed `b` is positive, the leading coefficient
`a = sqrt(p)/sqrt(p) - 1` is exactly `0`, both quadratic-formula roots divide
by zero, and `virtual_liquidity` returns a non-finite value (here NaN, since
`solution1 = -inf` fails the `> 0` test and `solution2 = 0/0`). -/
theorem c10_virtual_liquidity_degenerate (p r_a r_b : ℝ)
    (hp : 0 < p) (_hra : 0 ≤ r_a) (_hrb : 0 ≤ r_b)
    (hb : FP.gt (vl_b (FP.finite p) (FP.finite p) (FP.finite r_a) (FP.finite r_b))
      (FP.finite 0) = true) :
    ¬ FP.isFinite (virtual_liquidity (FP.finite p) (FP.finite p)
      (FP.finite r_a) (FP.finite r_b)) := by
  have hsp : (0:ℝ) < Real.sqrt p := Real.sqrt_pos.mpr hp
  have hbval : vl_b (FP.finite p) (FP.finite p) (FP.finite r_a) (FP.finite r_b) =
      FP.finite (r_b / Real.sqrt p + r_a * Real.sqrt p) := by
    unfold vl_b
    rw [FP.sqrt_finite p hp.le, FP.div_finite _ _ (ne_of_gt hsp),
      FP.mul_finite, FP.add_finite]
  have hBpos : 0 < r_b / Real.sqrt p + r_a * Real.sqrt p := by
    rw [hbval] at hb
    simpa [FP.gt, FP.lt] using hb
  have haval : vl_a (FP.finite p) (FP.finite p) = FP.finite 0 := by
    unfold vl_a
    rw [FP.sqrt_finite p hp.le, FP.div_finite _ _ (ne_of_gt hsp),
      div_self (ne_of_gt hsp), FP.sub_finite]
    norm_num
  have hdval : vl_d (FP.finite p) (FP.finite p) (FP.finite r_a) (FP.finite r_b) =
      FP.finite ((r_b / Real.sqrt p + r_a * Real.sqrt p) ^ 2) := by
    unfold vl_d vl_c
    rw [hbval, haval, FP.pow2_finite, FP.mul_finite r_a r_b, FP.mul_finite 4 0,
      FP.mul_finite, FP.sub_finite]
    norm_num
  have hsqd : FP.sqrt (vl_d (FP.finite p) (FP.finite p) (FP.finite r_a)
      (FP.finite r_b)) = FP.finite (r_b / Real.sqrt p + r_a * Real.sqrt p) := by
    rw [hdval, FP.sqrt_finite _ (sq_nonneg _), Real.sqrt_sq hBpos.le]
  have hs1 : vl_solution1 (FP.finite p) (FP.finite p) (FP.finite r_a)
      (FP.finite r_b) = FP.neginf := by
    unfold vl_solution1
    rw [hsqd, hbval, haval, FP.neg_finite, FP.sub_finite, FP.mul_finite]
    rw [show (2:ℝ) * 0 = 0 by norm_num]
    exact FP.div_zero_neg _ (by linarith)
  have hgt1 : FP.gt (vl_solution1 (FP.finite p) (FP.finite p) (FP.finite r_a)
      (FP.finite r_b)) (FP.finite 0) = false := by
    rw [hs1]
    rfl
  have hs2 : vl_solution2 (FP.finite p) (FP.finite p) (FP.finite r_a)
      (FP.finite r_b) = FP.nan := by
    unfold vl_solution2
    rw [hsqd, hbval, haval, FP.neg_finite, FP.add_finite, FP.mul_finite]
    rw [show (2:ℝ) * 0 = 0 by norm_num,
      show -(r_b / Real.sqrt p + r_a * Real.sqrt p) +
        (r_b / Real.sqrt p + r_a * Real.sqrt p) = 0 by ring]
    exact FP.div_zero_zero
  rw [virtual_liquidity_eq, hgt1]
  simp only [Bool.false_eq_true, if_false]
  rw [hs2]
  simp [FP.isFinite]

/-- C10 (witness): the degenerate range `p_a = p_b = 4` with unit reserves
has `b = 5/2 > 0` and a non-finite `virtual_liquidity`. -/
theorem c10_virtual_liquidity_degenerate_witness :
    (0:ℝ) < 4 ∧ (0:ℝ) ≤ 1 ∧
      FP.gt (vl_b (FP.finite 4) (FP.finite 4) (FP.finite 1) (FP.finite 1))
        (FP.finite 0) = true ∧
      ¬ FP.isFinite (virtual_liquidity (FP.finite 4) (FP.finite 4)
        (FP.finite 1) (FP.finite 1)) := by
  have hb : FP.gt (vl_b (FP.finite 4) (FP.finite 4) (FP.finite 1) (FP.finite 1))
      (FP.finite 0) = true := by
    unfold vl_b
    rw [FP.sqrt_finite 4 (by norm_num), sqrt_four,
      FP.div_finite 1 2 (by norm_num), FP.mul_finite, FP.add_finite]
    simp [FP.gt, FP.lt]
    norm_num
  exact ⟨by norm_num, by norm_num, hb,
    c10_virtual_liquidity_degenerate 4 1 1 (by norm_num) (by norm_num)
      (by norm_num) hb⟩

end FPSem

namespace DefiGreeks

/-! ## The concrete gamma scenario (claim C2) -/

/-- Helper: the standard upper bound `e^x ≤ 1/(1-x)` for `0 ≤ x < 1`. -/
theorem exp_le_inv_one_sub {x : ℝ} (_hx0 : 0 ≤ x) (hx1 : x < 1) :
    Real.exp x ≤ 1 / (1 - x) := by
  have hpos : 0 < 1 - x := by linarith
  have h2 : 1 - x ≤ (Real.exp x)⁻¹ := by
    rw [← Real.exp_neg]
    have h := Real.add_one_le_exp (-x)
    linarith
  have hexp : 0 < Real.exp x := Real.exp_pos x
  rw [le_div_iff₀ hpos]
  calc Real.exp x * (1 - x) ≤ Real.exp x * (Real.exp x)⁻¹ :=
        mul_le_mul_of_nonneg_left h2 hexp.le
    _ = 1 := mul_inv_cancel₀ (ne_of_gt hexp)

/-- Helper: bounds on `sqrt (23/365)`. -/
theorem sqrt_t_bounds :
    (0.251:ℝ) < Real.sqrt (23/365) ∧ Real.sqrt (23/365) < 0.2511 :=
  ⟨(Real.lt_sqrt (by norm_num)).mpr (by norm_num),
    (Real.sqrt_lt' (by norm_num)).mpr (by norm_num)⟩

/-- Helper: bounds on `log (64.68/65)` from `1 - 1/y < log y < y - 1`. -/
theorem log_moneyness_bounds :
    -0.0049475 < Real.log (64.68/65) ∧ Real.log (64.68/65) < -0.004923 := by
  constructor
  · have h := Real.log_lt_sub_one_of_pos
      (show (0:ℝ) < 65/64.68 by norm_num) (by norm_num)
    have hinv : Real.log ((65:ℝ)/64.68) = -Real.log (64.68/65) := by
      rw [← Real.log_inv]
      norm_num
    rw [hinv] at h
    have hv : (65:ℝ)/64.68 - 1 < 0.0049475 := by norm_num
    linarith
  · have h := Real.log_lt_sub_one_of_pos
      (show (0:ℝ) < 64.68/65 by norm_num) (by norm_num)
    have hv : (64.68:ℝ)/65 - 1 < -0.004923 := by norm_num
    linarith

/-- Helper: the library `d1` at the reference scenario lies in `(0, 0.0217)`. -/
theorem d1_scenario_bounds :
    0 < d1 64.68 65 (23/365) 0.0150 0.0210 0.5051 ∧
      d1 64.68 65 (23/365) 0.0150 0.0210 0.5051 < 0.0217 := by
  obtain ⟨hsqt1, hsqt2⟩ := sqrt_t_bounds
  obtain ⟨hlog_lb, hlog_ub⟩ := log_moneyness_bounds
  have hd1eq : d1 64.68 65 (23/365) 0.0150 0.0210 0.5051 =
      (Real.log (64.68/65) + (23/365) * (0.0150 - 0.0210 + 0.5051 ^ 2 / 2)) /
        (0.5051 * Real.sqrt (23/365)) := rfl
  have hDpos : (0:ℝ) < 0.5051 * Real.sqrt (23/365) := by nlinarith [hsqt1]
  have hD_lb : (0.1267:ℝ) < 0.5051 * Real.sqrt (23/365) := by nlinarith [hsqt1]
  have hN_lb : (0.00271:ℝ) <
      Real.log (64.68/65) + (23/365) * (0.0150 - 0.0210 + 0.5051 ^ 2 / 2) := by
    have hc : (0.0076601:ℝ) < (23/365) * (0.0150 - 0.0210 + 0.5051 ^ 2 / 2) := by
      norm_num
    linarith
  have hN_ub : Real.log (64.68/65) +
      (23/365) * (0.0150 - 0.0210 + 0.5051 ^ 2 / 2) < 0.002738 := by
    have hc : ((23:ℝ)/365) * (0.0150 - 0.0210 + 0.5051 ^ 2 / 2) < 0.0076602 := by
      norm_num
    linarith
  constructor
  · rw [hd1eq]
    exact div_pos (by linarith) hDpos
  · rw [hd1eq, div_lt_iff₀ hDpos]
    nlinarith [hD_lb, hN_ub]

/-- Helper: bounds on `sqrt (2*pi)`. -/
theorem sqrt_two_pi_bounds :
    (2.5066:ℝ) < Real.sqrt (2 * π) ∧ Real.sqrt (2 * π) < 2.5067 := by
  have hpi1 := Real.pi_gt_d6
  have hpi2 := Real.pi_lt_d6
  exact ⟨(Real.lt_sqrt (by norm_num)).mpr (by nlinarith),
    (Real.sqrt_lt' (by norm_num)).mpr (by nlinarith)⟩

set_option maxHeartbeats 1600000 in
/-- C2: at the reference scenario `s0 = 64.68, x = 65, t = 23/365,
r = 0.0150, q = 0.0210, sigma = 0.5051`, `gamma` is within `0.001` of
`0.0243` (interval-arithmetic bounds place `gamma` in about
`(0.02428, 0.02435)`). -/
theorem c2_gamma_scenario :
    |gamma 64.68 65 (23/365) 0.0150 0.0210 0.5051 - 0.0243| < 0.001 := by
  obtain ⟨hsqt1, hsqt2⟩ := sqrt_t_bounds
  obtain ⟨hd1_pos, hd1_ub⟩ := d1_scenario_bounds
  obtain ⟨hs2pi_lb, hs2pi_ub⟩ := sqrt_two_pi_bounds
  have hd1sq : (d1 64.68 65 (23/365) 0.0150 0.0210 0.5051) ^ 2 < 0.0005 := by
    nlinarith [hd1_ub, hd1_pos]
  have harg3_lb : (0.5:ℝ) ≤
      Real.exp ((d1 64.68 65 (23/365) 0.0150 0.0210 0.5051) ^ 2) / 2 := by
    have h := Real.one_le_exp
      (sq_nonneg (d1 64.68 65 (23/365) 0.0150 0.0210 0.5051))
    linarith
  have harg3_ub :
      Real.exp ((d1 64.68 65 (23/365) 0.0150 0.0210 0.5051) ^ 2) / 2 < 0.5003 := by
    have h := exp_le_inv_one_sub
      (sq_nonneg (d1 64.68 65 (23/365) 0.0150 0.0210 0.5051))
      (by nlinarith [hd1sq] :
        (d1 64.68 65 (23/365) 0.0150 0.0210 0.5051) ^ 2 < 1)
    have h2 : 1 / (1 - (d1 64.68 65 (23/365) 0.0150 0.0210 0.5051) ^ 2) <
        1.0006 := by
      rw [div_lt_iff₀ (by nlinarith [hd1sq])]
      nlinarith [hd1sq, sq_nonneg (d1 64.68 65 (23/365) 0.0150 0.0210 0.5051)]
    linarith
  have hqt_lb : (0.99867:ℝ) < Real.exp (-(0.0210 * (23/365))) := by
    have h := Real.add_one_le_exp (-(0.0210 * (23/365)))
    have hv : (0.99867:ℝ) < -(0.0210 * (23/365)) + 1 := by norm_num
    linarith
  have hqt_ub : Real.exp (-(0.0210 * (23/365))) < 1 :=
    Real.exp_lt_one_iff.mpr (by norm_num)
  have hP_lb : (8.2001:ℝ) < 64.68 * 0.5051 * Real.sqrt (23/365) := by
    nlinarith [hsqt1]
  have hP_ub : 64.68 * 0.5051 * Real.sqrt (23/365) < 8.2035 := by
    nlinarith [hsqt2]
  have hPpos : (0:ℝ) < 64.68 * 0.5051 * Real.sqrt (23/365) := by linarith
  have harg1_lb : (0.12173:ℝ) <
      Real.exp (-(0.0210 * (23/365))) / (64.68 * 0.5051 * Real.sqrt (23/365)) := by
    rw [lt_div_iff₀ hPpos]
    nlinarith [hP_ub, hqt_lb]
  have harg1_ub :
      Real.exp (-(0.0210 * (23/365))) / (64.68 * 0.5051 * Real.sqrt (23/365)) <
        0.12195 := by
    rw [div_lt_iff₀ hPpos]
    nlinarith [hP_lb, hqt_ub]
  have hs2pi_pos : (0:ℝ) < Real.sqrt (2 * π) := by linarith
  have harg2_lb : (0.39893:ℝ) < 1 / Real.sqrt (2 * π) := by
    rw [lt_div_iff₀ hs2pi_pos]
    nlinarith
  have harg2_ub : 1 / Real.sqrt (2 * π) < 0.39895 := by
    rw [div_lt_iff₀ hs2pi_pos]
    nlinarith
  have hgamma : gamma 64.68 65 (23/365) 0.0150 0.0210 0.5051 =
      Real.exp (-(0.0210 * (23/365))) / (64.68 * 0.5051 * Real.sqrt (23/365)) *
        (1 / Real.sqrt (2 * π)) *
        (Real.exp ((d1 64.68 65 (23/365) 0.0150 0.0210 0.5051) ^ 2) / 2) := by
    rw [show gamma 64.68 65 (23/365) 0.0150 0.0210 0.5051 =
        Real.exp (-(0.0210 * (23/365))) / (64.68 * 0.5051 * Real.sqrt (23/365)) *
          (1 / Real.sqrt (2 * π)) *
          (Real.exp ((-(d1 64.68 65 (23/365) 0.0150 0.0210 0.5051)) ^ 2) / 2)
      from rfl, neg_sq]
  rw [hgamma, abs_lt]
  have hab_lb : (0.04856:ℝ) <
      Real.exp (-(0.0210 * (23/365))) / (64.68 * 0.5051 * Real.sqrt (23/365)) *
        (1 / Real.sqrt (2 * π)) := by
    nlinarith [harg1_lb, harg2_lb, harg1_ub, harg2_ub]
  have hab_ub :
      Real.exp (-(0.0210 * (23/365))) / (64.68 * 0.5051 * Real.sqrt (23/365)) *
        (1 / Real.sqrt (2 * π)) < 0.04866 := by
    nlinarith [harg1_lb, harg2_lb, harg1_ub, harg2_ub]
  constructor
  · nlinarith [hab_lb, hab_ub, harg3_lb, harg3_ub]
  · nlinarith [hab_lb, hab_ub, harg3_lb, harg3_ub]

end DefiGreeks
